import Mathlib

/-! Formal model of the core of src/backend/occserver.py: the indexed mesh
builder and assembler (extract_mesh_data), the shape registry with its
centering and transform operations, the upload validation path, and the
RANSAC cylinder fitting pipeline around recognize_shape. Coordinates are
modelled by rational numbers where the Python code manipulates floats
componentwise, and by real numbers where Euclidean norms are taken. -/

/-- A 3D point or vector with exact coordinates. -/
structure Vec3 where
  x : ℚ
  y : ℚ
  z : ℚ
  deriving DecidableEq

/-- Componentwise vector addition, modelling translation by a gp_Vec. -/
instance : Add Vec3 where
  add a b := ⟨a.x + b.x, a.y + b.y, a.z + b.z⟩

/-- One triangle of a face triangulation: the three node identifiers
returned by triangle.Get() at line 150 of occserver.py. -/
structure Tri where
  n1 : Nat
  n2 : Nat
  n3 : Nat
  deriving DecidableEq

/-- Model of a Poly_Triangulation for one face together with the transform
of its TopLoc_Location (occserver.py lines 143-157): the triangle list,
the node positions keyed by the native node identifier, and the rigid
transform applied to each node position. -/
structure Triangulation where
  tris : List Tri
  node : Nat → Vec3
  transform : Vec3 → Vec3

/-- The mutable state of the per-face loop of extract_mesh_data
(occserver.py line 147): face_vertices, face_indices and vertex_map. -/
structure BuildState where
  face_vertices : List Vec3
  face_indices : List Nat
  vertex_map : List (Nat × Nat)

/-- Association-list lookup modelling the Python dict vertex_map. -/
def mapLookup : List (Nat × Nat) → Nat → Option Nat
  | [], _ => none
  | p :: l, n => if n = p.1 then some p.2 else mapLookup l n

/-- Body of the inner node loop of extract_mesh_data (lines 151-158): if
the node identifier is unseen, mint a new local vertex index, record it in
vertex_map and append the transformed node position; in both cases append
the mapped index to face_indices. -/
def stepNode (T : Triangulation) (s : BuildState) (n : Nat) : BuildState :=
  match mapLookup s.vertex_map n with
  | some j =>
    { s with face_indices := s.face_indices ++ [j] }
  | none =>
    { face_vertices := s.face_vertices ++ [T.transform (T.node n)]
      face_indices := s.face_indices ++ [s.face_vertices.length]
      vertex_map := s.vertex_map ++ [(n, s.face_vertices.length)] }

/-- One iteration of the triangle loop (lines 148-158): the three nodes of
the triangle are processed in order n1, n2, n3. -/
def stepTri (T : Triangulation) (s : BuildState) (t : Tri) : BuildState :=
  stepNode T (stepNode T (stepNode T s t.n1) t.n2) t.n3

/-- The whole per-face build loop of extract_mesh_data, starting from
empty face_vertices, face_indices and vertex_map (line 147). -/
def buildFace (T : Triangulation) : BuildState :=
  T.tris.foldl (stepTri T) ⟨[], [], []⟩

/-- The flattened node identifier sequence of a triangle list, in triangle
order and per-triangle winding order n1, n2, n3. -/
def nodesOf : List Tri → List Nat
  | [] => []
  | t :: ts => t.n1 :: t.n2 :: t.n3 :: nodesOf ts

/-- One deduplication step: keep the accumulator if the identifier was
already seen, otherwise append it at the end. -/
def seenF (acc : List Nat) (n : Nat) : List Nat :=
  if n ∈ acc then acc else acc ++ [n]

/-- The list of distinct identifiers of l in first-seen order. -/
def seenOrder (l : List Nat) : List Nat := l.foldl seenF []

/-- Index of the first occurrence of n in l (l.length when absent). -/
def firstIdx : List Nat → Nat → Nat
  | [], _ => 0
  | a :: l, n => if a = n then 0 else firstIdx l n + 1

theorem mapLookup_append_some {l1 : List (Nat × Nat)} {n v : Nat}
    (h : mapLookup l1 n = some v) (l2 : List (Nat × Nat)) :
    mapLookup (l1 ++ l2) n = some v := by
  induction l1 with
  | nil => simp [mapLookup] at h
  | cons p t ih =>
    by_cases hn : n = p.1
    · simp [mapLookup, hn] at h ⊢
      exact h
    · simp [mapLookup, hn] at h ⊢
      exact ih h

theorem mapLookup_append_none {l1 : List (Nat × Nat)} {n : Nat}
    (h : mapLookup l1 n = none) (l2 : List (Nat × Nat)) :
    mapLookup (l1 ++ l2) n = mapLookup l2 n := by
  induction l1 with
  | nil => simp [mapLookup]
  | cons p t ih =>
    by_cases hn : n = p.1
    · simp [mapLookup, hn] at h
    · simp [mapLookup, hn] at h ⊢
      exact ih h

theorem foldl_seenF_mem (l : List Nat) :
    ∀ (acc : List Nat) (m : Nat), m ∈ l.foldl seenF acc ↔ m ∈ acc ∨ m ∈ l := by
  induction l with
  | nil => intro acc m; simp
  | cons n t ih =>
    intro acc m
    rw [List.foldl_cons, ih]
    by_cases h : n ∈ acc
    · simp only [seenF, if_pos h, List.mem_cons]
      constructor
      · rintro (hm | hm)
        · exact Or.inl hm
        · exact Or.inr (Or.inr hm)
      · rintro (hm | hm | hm)
        · exact Or.inl hm
        · exact Or.inl (hm ▸ h)
        · exact Or.inr hm
    · simp only [seenF, if_neg h, List.mem_append, List.mem_singleton, List.mem_cons]
      tauto

theorem mem_seenOrder (l : List Nat) (m : Nat) : m ∈ seenOrder l ↔ m ∈ l := by
  unfold seenOrder
  rw [foldl_seenF_mem]
  simp

theorem seenOrder_append_one (l : List Nat) (n : Nat) :
    seenOrder (l ++ [n]) = seenF (seenOrder l) n := by
  unfold seenOrder
  rw [List.foldl_append]
  rfl

theorem firstIdx_append_left (l1 l2 : List Nat) (n : Nat) (h : n ∈ l1) :
    firstIdx (l1 ++ l2) n = firstIdx l1 n := by
  induction l1 with
  | nil => simp at h
  | cons a t ih =>
    by_cases ha : a = n
    · simp [firstIdx, ha]
    · have hmem : n ∈ t := by
        rcases List.mem_cons.mp h with h1 | h1
        · exact absurd h1.symm ha
        · exact h1
      simp [firstIdx, ha, ih hmem]

theorem firstIdx_append_self (l : List Nat) (n : Nat) (h : n ∉ l) :
    firstIdx (l ++ [n]) n = l.length := by
  induction l with
  | nil => simp [firstIdx]
  | cons a t ih =>
    have ha : a ≠ n := fun hc => h (by simp [hc])
    have ht : n ∉ t := fun hc => h (by simp [hc])
    simp [firstIdx, ha, ih ht]

theorem firstIdx_lt_length (l : List Nat) (n : Nat) (h : n ∈ l) :
    firstIdx l n < l.length := by
  induction l with
  | nil => simp at h
  | cons a t ih =>
    by_cases ha : a = n
    · simp [firstIdx, ha]
    · have hmem : n ∈ t := by
        rcases List.mem_cons.mp h with h1 | h1
        · exact absurd h1.symm ha
        · exact h1
      simp only [firstIdx, if_neg ha, List.length_cons]
      exact Nat.succ_lt_succ (ih hmem)

theorem listMapCongr {α β : Type} (f g : α → β) :
    ∀ (l : List α), (∀ a ∈ l, f a = g a) → l.map f = l.map g := by
  intro l
  induction l with
  | nil => intro _; rfl
  | cons a t ih =>
    intro h
    simp only [List.map_cons]
    rw [h a (by simp), ih (fun b hb => h b (by simp [hb]))]

/-- Invariant tying a builder state to the prefix of node identifiers
processed so far: the vertices are the transformed positions of the
distinct identifiers in first-seen order, the emitted indices are the
first-seen positions of the full identifier sequence, and vertex_map maps
exactly the seen identifiers to their first-seen position. -/
def BInv (T : Triangulation) (pre : List Nat) (s : BuildState) : Prop :=
  s.face_vertices = (seenOrder pre).map (fun n => T.transform (T.node n))
  ∧ s.face_indices = pre.map (fun n => firstIdx (seenOrder pre) n)
  ∧ ∀ n, mapLookup s.vertex_map n =
      if n ∈ pre then some (firstIdx (seenOrder pre) n) else none

theorem BInv_step (T : Triangulation) (pre : List Nat) (s : BuildState) (n : Nat)
    (h : BInv T pre s) : BInv T (pre ++ [n]) (stepNode T s n) := by
  obtain ⟨hv, hi, hm⟩ := h
  by_cases hmem : n ∈ pre
  · have hs : n ∈ seenOrder pre := (mem_seenOrder pre n).mpr hmem
    have hseen : seenOrder (pre ++ [n]) = seenOrder pre := by
      rw [seenOrder_append_one, seenF, if_pos hs]
    have hlook : mapLookup s.vertex_map n = some (firstIdx (seenOrder pre) n) := by
      rw [hm n, if_pos hmem]
    have hstep : stepNode T s n =
        { s with face_indices := s.face_indices ++ [firstIdx (seenOrder pre) n] } := by
      simp [stepNode, hlook]
    rw [hstep]
    refine ⟨?_, ?_, ?_⟩
    · simpa [hseen] using hv
    · rw [hseen, List.map_append]
      simp [hi]
    · intro m
      show mapLookup s.vertex_map m = _
      rw [hm m, hseen]
      by_cases hmp : m ∈ pre
      · have : m ∈ pre ++ [n] := by simp [hmp]
        rw [if_pos hmp, if_pos this]
      · by_cases hmn : m = n
        · exact absurd (hmn ▸ hmem) hmp
        · have : m ∉ pre ++ [n] := by simp [hmp, hmn]
          rw [if_neg hmp, if_neg this]
  · have hs : n ∉ seenOrder pre := fun hc => hmem ((mem_seenOrder pre n).mp hc)
    have hseen : seenOrder (pre ++ [n]) = seenOrder pre ++ [n] := by
      rw [seenOrder_append_one, seenF, if_neg hs]
    have hlook : mapLookup s.vertex_map n = none := by rw [hm n, if_neg hmem]
    have hlen : s.face_vertices.length = (seenOrder pre).length := by
      rw [hv, List.length_map]
    have hstep : stepNode T s n =
        { face_vertices := s.face_vertices ++ [T.transform (T.node n)]
          face_indices := s.face_indices ++ [s.face_vertices.length]
          vertex_map := s.vertex_map ++ [(n, s.face_vertices.length)] } := by
      simp [stepNode, hlook]
    rw [hstep]
    refine ⟨?_, ?_, ?_⟩
    · rw [hseen, List.map_append]
      simp [hv]
    · rw [hseen, List.map_append]
      have h1 : pre.map (fun k => firstIdx (seenOrder pre ++ [n]) k)
          = pre.map (fun k => firstIdx (seenOrder pre) k) := by
        apply listMapCongr
        intro a ha
        exact firstIdx_append_left _ _ _ ((mem_seenOrder pre a).mpr ha)
      have h2 : firstIdx (seenOrder pre ++ [n]) n = (seenOrder pre).length :=
        firstIdx_append_self _ _ hs
      simp [h1, h2, hi, hlen]
    · intro m
      by_cases hmn : m = n
      · subst hmn
        have hl : mapLookup (s.vertex_map ++ [(m, s.face_vertices.length)]) m
            = some s.face_vertices.length := by
          rw [mapLookup_append_none hlook]
          simp [mapLookup]
        show mapLookup (s.vertex_map ++ [(m, s.face_vertices.length)]) m = _
        rw [hl]
        have hmm : m ∈ pre ++ [m] := by simp
        rw [if_pos hmm, hseen, firstIdx_append_self _ _ hs, hlen]
      · by_cases hmp : m ∈ pre
        · have hsome := hm m
          rw [if_pos hmp] at hsome
          show mapLookup (s.vertex_map ++ [(n, s.face_vertices.length)]) m = _
          rw [mapLookup_append_some hsome]
          have hin : m ∈ pre ++ [n] := by simp [hmp]
          rw [if_pos hin, hseen,
            firstIdx_append_left _ _ _ ((mem_seenOrder pre m).mpr hmp)]
        · have hnone := hm m
          rw [if_neg hmp] at hnone
          show mapLookup (s.vertex_map ++ [(n, s.face_vertices.length)]) m = _
          rw [mapLookup_append_none hnone]
          have hout : m ∉ pre ++ [n] := by simp [hmp, hmn]
          rw [if_neg hout]
          simp [mapLookup, hmn]

theorem BInv_fold (T : Triangulation) (l : List Nat) :
    ∀ (pre : List Nat) (s : BuildState), BInv T pre s →
      BInv T (pre ++ l) (l.foldl (stepNode T) s) := by
  induction l with
  | nil => intro pre s h; simpa using h
  | cons n t ih =>
    intro pre s h
    have h1 := BInv_step T pre s n h
    have h2 := ih (pre ++ [n]) _ h1
    simpa [List.append_assoc] using h2

theorem foldl_stepTri_eq (T : Triangulation) (ts : List Tri) :
    ∀ s, ts.foldl (stepTri T) s = (nodesOf ts).foldl (stepNode T) s := by
  induction ts with
  | nil => intro s; rfl
  | cons t ts ih =>
    intro s
    simp only [List.foldl_cons, nodesOf, ih]
    rfl

/-- The builder state produced by buildFace satisfies the first-seen
characterization over the full flattened node identifier sequence. -/
theorem buildFace_char (T : Triangulation) : BInv T (nodesOf T.tris) (buildFace T) := by
  have h0 : BInv T [] ⟨[], [], []⟩ := by
    refine ⟨rfl, rfl, fun n => by simp [mapLookup, seenOrder]⟩
  have h := BInv_fold T (nodesOf T.tris) [] _ h0
  simpa [buildFace, foldl_stepTri_eq] using h

theorem buildFace_vertices (T : Triangulation) :
    (buildFace T).face_vertices
      = (seenOrder (nodesOf T.tris)).map (fun n => T.transform (T.node n)) :=
  (buildFace_char T).1

theorem buildFace_indices (T : Triangulation) :
    (buildFace T).face_indices
      = (nodesOf T.tris).map (fun n => firstIdx (seenOrder (nodesOf T.tris)) n) :=
  (buildFace_char T).2.1

theorem buildFace_lookup (T : Triangulation) (n : Nat) :
    mapLookup (buildFace T).vertex_map n =
      if n ∈ nodesOf T.tris
      then some (firstIdx (seenOrder (nodesOf T.tris)) n) else none :=
  (buildFace_char T).2.2 n

theorem nodesOf_length (ts : List Tri) : (nodesOf ts).length = 3 * ts.length := by
  induction ts with
  | nil => rfl
  | cons t ts ih =>
    simp only [nodesOf, List.length_cons, ih]
    omega

theorem buildFace_index_lt (T : Triangulation) :
    ∀ k ∈ (buildFace T).face_indices, k < (buildFace T).face_vertices.length := by
  intro k hk
  rw [buildFace_indices] at hk
  obtain ⟨n, hn, rfl⟩ := List.mem_map.mp hk
  rw [buildFace_vertices, List.length_map]
  exact firstIdx_lt_length _ _ ((mem_seenOrder _ _).mpr hn)

theorem buildFace_indices_length (T : Triangulation) :
    (buildFace T).face_indices.length = 3 * T.tris.length := by
  rw [buildFace_indices, List.length_map, nodesOf_length]

/-- Surface classification of one face (occserver.py lines 123-141): the
adaptor-reported analytic type, with radius, axis location and axis
direction read off for cylindrical faces. -/
inductive SurfaceProps where
  | Cyl (radius : ℚ) (center : Vec3) (axisDir : Vec3)
  | Plane
  | Other
  deriving DecidableEq

/-- One enumerated topological face as seen by the assembler loop: its
classification and the triangulation the kernel produced for it, if any
(BRep_Tool.Triangulation at line 143 may return nothing). -/
structure FaceData where
  surface : SurfaceProps
  triangulation : Option Triangulation

/-- The per-face record appended to faces_data (lines 163-168). -/
structure FaceRecord where
  id : String
  vertices : List Vec3
  indices : List Nat
  vertexCount : Nat
  triangleCount : Nat
  surface : SurfaceProps

/-- The mesh dictionary returned by extract_mesh_data (lines 177-182). -/
structure MeshRecord where
  id : Option String
  vertices : List ℚ
  indices : List Nat
  faces : List FaceRecord
  faceIdByTriangle : List String
  vertexCount : Nat
  triangleCount : Nat
  faceCount : Nat

/-- The face identifier string assigned at line 121 from the traversal
counter. -/
def faceIdStr (n : Nat) : String := "face_" ++ toString n

/-- The face_data dictionary built at lines 163-167 for a face that has a
triangulation. -/
def mkFaceRecord (i : Nat) (f : FaceData) (T : Triangulation) : FaceRecord :=
  { id := faceIdStr i
    vertices := (buildFace T).face_vertices
    indices := (buildFace T).face_indices
    vertexCount := (buildFace T).face_vertices.length
    triangleCount := T.tris.length
    surface := f.surface }

/-- The accumulators of the face loop of extract_mesh_data (line 113):
global_vertices, global_indices, faces_data and face_id_by_triangle. -/
structure AsmState where
  gv : List Vec3
  gi : List Nat
  fd : List FaceRecord
  fibt : List String

/-- The face loop of extract_mesh_data (lines 116-174): the traversal
counter i advances for every enumerated face; a face with a triangulation
appends its sub-mesh, its face id once per triangle, its vertices, and its
indices offset by the current global vertex count. -/
def asmLoop : Nat → AsmState → List FaceData → AsmState
  | _, st, [] => st
  | i, st, f :: fs =>
    match f.triangulation with
    | none => asmLoop (i + 1) st fs
    | some T =>
      asmLoop (i + 1)
        { gv := st.gv ++ (buildFace T).face_vertices
          gi := st.gi ++ (buildFace T).face_indices.map (fun k => k + st.gv.length)
          fd := st.fd ++ [mkFaceRecord i f T]
          fibt := st.fibt ++ List.replicate T.tris.length (faceIdStr i) }
        fs

/-- Flattening of the global vertex list into the flat coordinate list
(line 176). -/
def flatten3 : List Vec3 → List ℚ
  | [] => []
  | v :: vs => v.x :: v.y :: v.z :: flatten3 vs

/-- Model of extract_mesh_data (lines 107-182) after a successful meshing
call, as a function of the classified, possibly-triangulated face list
produced by the kernel for the shape. -/
def extract_mesh_data (shape_faces : List FaceData) (shape_id : Option String) : MeshRecord :=
  let r := asmLoop 0 ⟨[], [], [], []⟩ shape_faces
  { id := shape_id
    vertices := flatten3 r.gv
    indices := r.gi
    faces := r.fd
    faceIdByTriangle := r.fibt
    vertexCount := r.gv.length
    triangleCount := r.gi.length / 3
    faceCount := r.fd.length }

/-- Specification of the global vertex buffer: faces without a
triangulation contribute nothing. -/
def gvSpec : List FaceData → List Vec3
  | [] => []
  | f :: fs =>
    match f.triangulation with
    | none => gvSpec fs
    | some T => (buildFace T).face_vertices ++ gvSpec fs

/-- Specification of the global index buffer with a running vertex offset:
faces without a triangulation contribute nothing and do not advance the
offset. -/
def giSpec (off : Nat) : List FaceData → List Nat
  | [] => []
  | f :: fs =>
    match f.triangulation with
    | none => giSpec off fs
    | some T =>
      (buildFace T).face_indices.map (fun k => k + off)
        ++ giSpec (off + (buildFace T).face_vertices.length) fs

/-- Specification of faces_data: the traversal index i counts every
enumerated face, but only faces with a triangulation produce a record. -/
def facesSpec (i : Nat) : List FaceData → List FaceRecord
  | [] => []
  | f :: fs =>
    match f.triangulation with
    | none => facesSpec (i + 1) fs
    | some T => mkFaceRecord i f T :: facesSpec (i + 1) fs

/-- Specification of face_id_by_triangle: one id entry per triangle of
each triangulated face, none for untriangulated faces. -/
def fibtSpec (i : Nat) : List FaceData → List String
  | [] => []
  | f :: fs =>
    match f.triangulation with
    | none => fibtSpec (i + 1) fs
    | some T => List.replicate T.tris.length (faceIdStr i) ++ fibtSpec (i + 1) fs

/-- The 0-based traversal indices of the faces that have a triangulation,
counting every enumerated face. -/
def triIdxs (i : Nat) : List FaceData → List Nat
  | [] => []
  | f :: fs =>
    match f.triangulation with
    | none => triIdxs (i + 1) fs
    | some _ => i :: triIdxs (i + 1) fs

/-- Total triangle count over the triangulated faces. -/
def triTotal : List FaceData → Nat
  | [] => 0
  | f :: fs =>
    (match f.triangulation with
     | none => 0
     | some T => T.tris.length) + triTotal fs

theorem asmLoop_char (fds : List FaceData) :
    ∀ (i : Nat) (st : AsmState),
      asmLoop i st fds =
        { gv := st.gv ++ gvSpec fds
          gi := st.gi ++ giSpec st.gv.length fds
          fd := st.fd ++ facesSpec i fds
          fibt := st.fibt ++ fibtSpec i fds } := by
  induction fds with
  | nil => intro i st; simp [asmLoop, gvSpec, giSpec, facesSpec, fibtSpec]
  | cons f fs ih =>
    intro i st
    cases htr : f.triangulation with
    | none =>
      simp only [asmLoop, htr, gvSpec, giSpec, facesSpec, fibtSpec, ih]
    | some T =>
      simp only [asmLoop, htr, gvSpec, giSpec, facesSpec, fibtSpec, ih]
      simp [List.append_assoc, List.length_append]

theorem extract_eq (fds : List FaceData) (sid : Option String) :
    extract_mesh_data fds sid =
      { id := sid
        vertices := flatten3 (gvSpec fds)
        indices := giSpec 0 fds
        faces := facesSpec 0 fds
        faceIdByTriangle := fibtSpec 0 fds
        vertexCount := (gvSpec fds).length
        triangleCount := (giSpec 0 fds).length / 3
        faceCount := (facesSpec 0 fds).length } := by
  unfold extract_mesh_data
  rw [asmLoop_char]
  simp

theorem flatten3_length (l : List Vec3) : (flatten3 l).length = 3 * l.length := by
  induction l with
  | nil => rfl
  | cons v vs ih =>
    simp only [flatten3, List.length_cons, ih]
    omega

theorem giSpec_length (fds : List FaceData) :
    ∀ off, (giSpec off fds).length = 3 * triTotal fds := by
  induction fds with
  | nil => intro off; simp [giSpec, triTotal]
  | cons f fs ih =>
    intro off
    cases htr : f.triangulation with
    | none => simp [giSpec, triTotal, htr, ih]
    | some T =>
      simp [giSpec, triTotal, htr, ih, buildFace_indices_length]
      omega

theorem fibtSpec_length (fds : List FaceData) :
    ∀ i, (fibtSpec i fds).length = triTotal fds := by
  induction fds with
  | nil => intro i; simp [fibtSpec, triTotal]
  | cons f fs ih =>
    intro i
    cases htr : f.triangulation with
    | none => simp [fibtSpec, triTotal, htr, ih]
    | some T => simp [fibtSpec, triTotal, htr, ih]

theorem facesSpec_sum (fds : List FaceData) :
    ∀ i, ((facesSpec i fds).map (fun fr => fr.triangleCount)).sum = triTotal fds := by
  induction fds with
  | nil => intro i; simp [facesSpec, triTotal]
  | cons f fs ih =>
    intro i
    cases htr : f.triangulation with
    | none => simp [facesSpec, triTotal, htr, ih]
    | some T => simp [facesSpec, triTotal, htr, ih, mkFaceRecord]

theorem gvSpec_length_aux (fds : List FaceData) :
    ∀ off k, k ∈ giSpec off fds → k < off + (gvSpec fds).length := by
  induction fds with
  | nil => intro off k hk; simp [giSpec] at hk
  | cons f fs ih =>
    intro off k hk
    cases htr : f.triangulation with
    | none =>
      simp only [giSpec, htr] at hk
      simp only [gvSpec, htr]
      exact ih off k hk
    | some T =>
      simp only [giSpec, htr, List.mem_append, List.mem_map] at hk
      simp only [gvSpec, htr, List.length_append]
      rcases hk with ⟨j, hj, rfl⟩ | hk
      · have := buildFace_index_lt T j hj
        omega
      · have := ih (off + (buildFace T).face_vertices.length) k hk
        omega

theorem facesSpec_ids (fds : List FaceData) :
    ∀ i, (facesSpec i fds).map (fun fr => fr.id) = (triIdxs i fds).map faceIdStr := by
  induction fds with
  | nil => intro i; simp [facesSpec, triIdxs]
  | cons f fs ih =>
    intro i
    cases htr : f.triangulation with
    | none => simp [facesSpec, triIdxs, htr, ih]
    | some T => simp [facesSpec, triIdxs, htr, ih, mkFaceRecord]

/-- Sequential minimum fold, modelling numpy componentwise min and the
Bnd_Box lower bound accumulation. -/
def foldMin (a : ℚ) : List ℚ → ℚ
  | [] => a
  | b :: l => foldMin (min a b) l

/-- Sequential maximum fold, modelling numpy componentwise max and the
Bnd_Box upper bound accumulation. -/
def foldMax (a : ℚ) : List ℚ → ℚ
  | [] => a
  | b :: l => foldMax (max a b) l

theorem foldMin_le_init (l : List ℚ) : ∀ a, foldMin a l ≤ a := by
  induction l with
  | nil => intro a; exact le_refl a
  | cons b t ih => intro a; exact le_trans (ih (min a b)) (min_le_left a b)

theorem foldMin_le_mem (l : List ℚ) : ∀ a, ∀ q ∈ l, foldMin a l ≤ q := by
  induction l with
  | nil => intro a q hq; simp at hq
  | cons b t ih =>
    intro a q hq
    rcases List.mem_cons.mp hq with h1 | h1
    · subst h1
      exact le_trans (foldMin_le_init t (min a q)) (min_le_right a q)
    · exact ih (min a b) q h1

theorem foldMin_mem_or (l : List ℚ) : ∀ a, foldMin a l = a ∨ foldMin a l ∈ l := by
  induction l with
  | nil => intro a; exact Or.inl rfl
  | cons b t ih =>
    intro a
    rcases ih (min a b) with h | h
    · rcases le_total a b with hab | hba
      · left
        show foldMin (min a b) t = a
        rw [h, min_eq_left hab]
      · right
        show foldMin (min a b) t ∈ b :: t
        rw [h, min_eq_right hba]
        exact List.mem_cons_self b t
    · right
      exact List.mem_cons_of_mem b h

theorem foldMax_init_le (l : List ℚ) : ∀ a, a ≤ foldMax a l := by
  induction l with
  | nil => intro a; exact le_refl a
  | cons b t ih => intro a; exact le_trans (le_max_left a b) (ih (max a b))

theorem foldMax_mem_le (l : List ℚ) : ∀ a, ∀ q ∈ l, q ≤ foldMax a l := by
  induction l with
  | nil => intro a q hq; simp at hq
  | cons b t ih =>
    intro a q hq
    rcases List.mem_cons.mp hq with h1 | h1
    · subst h1
      exact le_trans (le_max_right a q) (foldMax_init_le t (max a q))
    · exact ih (max a b) q h1

theorem foldMax_mem_or (l : List ℚ) : ∀ a, foldMax a l = a ∨ foldMax a l ∈ l := by
  induction l with
  | nil => intro a; exact Or.inl rfl
  | cons b t ih =>
    intro a
    rcases ih (max a b) with h | h
    · rcases le_total a b with hab | hba
      · right
        show foldMax (max a b) t ∈ b :: t
        rw [h, max_eq_right hab]
        exact List.mem_cons_self b t
      · left
        show foldMax (max a b) t = a
        rw [h, max_eq_left hba]
    · right
      exact List.mem_cons_of_mem b h

theorem foldMin_map_sub (l : List ℚ) (c : ℚ) :
    ∀ a, foldMin (a - c) (l.map (fun q => q - c)) = foldMin a l - c := by
  induction l with
  | nil => intro a; rfl
  | cons b t ih =>
    intro a
    show foldMin (min (a - c) (b - c)) (t.map (fun q => q - c)) = _
    rw [min_sub_sub_right, ih (min a b)]
    rfl

theorem foldMax_map_sub (l : List ℚ) (c : ℚ) :
    ∀ a, foldMax (a - c) (l.map (fun q => q - c)) = foldMax a l - c := by
  induction l with
  | nil => intro a; rfl
  | cons b t ih =>
    intro a
    show foldMax (max (a - c) (b - c)) (t.map (fun q => q - c)) = _
    rw [max_sub_sub_right, ih (max a b)]
    rfl

/-- A stored shape, modelled by the finite point set that determines its
kernel bounding box; rigid placement changes act pointwise on it. -/
abbrev Shape := List Vec3

/-- Model of Bnd_Box plus brepbndlib.Add plus Get (lines 92-96): the
componentwise bounds over the points of the shape, or none when the box
is void (nothing was added). -/
def bboxGet (s : Shape) : Option (ℚ × ℚ × ℚ × ℚ × ℚ × ℚ) :=
  match s with
  | [] => none
  | p :: ps =>
    some (foldMin p.x (ps.map Vec3.x), foldMin p.y (ps.map Vec3.y),
      foldMin p.z (ps.map Vec3.z), foldMax p.x (ps.map Vec3.x),
      foldMax p.y (ps.map Vec3.y), foldMax p.z (ps.map Vec3.z))

/-- The center of the recomputed bounding box of a shape, when the box is
not void. -/
def bboxCenter (s : Shape) : Option Vec3 :=
  match bboxGet s with
  | none => none
  | some (x0, y0, z0, x1, y1, z1) =>
    some ⟨(x0 + x1) / 2, (y0 + y1) / 2, (z0 + z1) / 2⟩

/-- Model of center_shape (lines 90-105): a void box returns the shape
unmodified; otherwise the shape is moved by the translation that negates
the box center. -/
def center_shape (s : Shape) : Shape :=
  match bboxGet s with
  | none => s
  | some (xmin, ymin, zmin, xmax, ymax, zmax) =>
    s.map (fun p =>
      ⟨p.x - (xmin + xmax) / 2, p.y - (ymin + ymax) / 2, p.z - (zmin + zmax) / 2⟩)

/-- The process-wide scene_objects mapping (line 62). -/
abbrev Registry := List (String × Shape)

/-- Registry lookup, modelling Python dict access. -/
def regGet : Registry → String → Option Shape
  | [], _ => none
  | p :: r, key => if key = p.1 then some p.2 else regGet r key

/-- Registry store, modelling Python dict assignment: overwrite the entry
when the key exists, append it otherwise. -/
def regSet (reg : Registry) (key : String) (s : Shape) : Registry :=
  if (regGet reg key).isSome then
    reg.map (fun p => if p.1 = key then (key, s) else p)
  else reg ++ [(key, s)]

/-- Failure conditions surfaced by the request handlers. -/
inductive ServerErr where
  | readFailed
  | meshingFailed
  | notFound
  deriving DecidableEq

/-- Model of process_step_file (lines 184-202). The kernel reader is
summarized by its outcome readResult; tess is the kernel tessellation
oracle feeding extract_mesh_data, returning none when meshing fails
(mesh.IsDone() false at line 111). The shape is centered and stored under
the fresh identifier before tessellation runs, so a tessellation failure
leaves the new entry in the registry. -/
def process_step_file (tess : Shape → Option (List FaceData))
    (readResult : Option Shape) (newId : String) (reg : Registry) :
    Registry × Except ServerErr MeshRecord :=
  match readResult with
  | none => (reg, Except.error ServerErr.readFailed)
  | some shape =>
    let c := center_shape shape
    let reg2 := regSet reg newId c
    match tess c with
    | none => (reg2, Except.error ServerErr.meshingFailed)
    | some fds => (reg2, Except.ok (extract_mesh_data fds (some newId)))

/-- Optional translation application of transform_shape (lines 352-355). -/
def applyTrans (t : Option Vec3) (s : Shape) : Shape :=
  match t with
  | none => s
  | some v => s.map (fun p => p + v)

/-- Optional rotation application of transform_shape (lines 356-359); the
kernel rotation about an axis through the origin is an arbitrary map
supplied per request. -/
def applyRot (r : Option (Vec3 → Vec3)) (s : Shape) : Shape :=
  match r with
  | none => s
  | some rf => s.map rf

/-- Model of transform_shape (lines 346-365): lookup, then translation,
then rotation, each mutating the stored shape in place, then
re-tessellation. The moves act on the registry entry itself, so they
persist even when the subsequent tessellation fails. -/
def transform_shape (tess : Shape → Option (List FaceData)) (shape_id : String)
    (translation : Option Vec3) (rotation : Option (Vec3 → Vec3)) (reg : Registry) :
    Registry × Except ServerErr MeshRecord :=
  match regGet reg shape_id with
  | none => (reg, Except.error ServerErr.notFound)
  | some shape =>
    let s2 := applyRot rotation (applyTrans translation shape)
    let reg2 := regSet reg shape_id s2
    match tess s2 with
    | none => (reg2, Except.error ServerErr.meshingFailed)
    | some fds => (reg2, Except.ok (extract_mesh_data fds (some shape_id)))

/-- Modelled from the spec: the kernel rotation produced by gp_Trsf
SetRotation about the axis through the origin with direction (0, 0, 1)
and an angle of 90 degrees (converted to radians), which maps a point
(x, y, z) to (-y, x, z). -/
def rotZ90 : Vec3 → Vec3 := fun v => ⟨-v.y, v.x, v.z⟩

/-- The allowed upload extensions (line 59). -/
def ALLOWED_EXTENSIONS : List String := [".step", ".stp", ".iges", ".igs"]

/-- ASCII lowercase conversion of a character list, modelling str.lower
on extension characters. -/
def lowerChars (l : List Char) : List Char := l.map Char.toLower

/-- Model of allowed_file (lines 70-72): the lowercased filename must end
with one of the allowed extensions. -/
def allowed_file (filename : String) : Bool :=
  ALLOWED_EXTENSIONS.any (fun ext => List.isSuffixOf ext.data (lowerChars filename.data))

/-- Kernel interactions observable during one import request. -/
inductive KernelCall where
  | readFile
  | tessellate
  deriving DecidableEq

/-- Responses of the upload route. -/
inductive StepResponse where
  | noFileUploaded
  | noFileSelected
  | invalidFileType
  | processingFailed (e : ServerErr)
  | success (m : MeshRecord)

/-- The kernel calls performed by process_step_file: the reader always
runs; tessellation runs only when reading succeeded. -/
def kernelCallsOf (readResult : Option Shape) : List KernelCall :=
  match readResult with
  | none => [KernelCall.readFile]
  | some _ => [KernelCall.readFile, KernelCall.tessellate]

/-- Model of the process-step route (lines 310-344): file-presence,
file-name and extension validation run in order before the file is saved
and handed to process_step_file; the third component records the kernel
calls the request performed. -/
def process_step (tess : Shape → Option (List FaceData)) (fileProvided : Bool)
    (filename : String) (readResult : Option Shape) (newId : String)
    (reg : Registry) : Registry × StepResponse × List KernelCall :=
  if fileProvided = false then (reg, StepResponse.noFileUploaded, [])
  else if filename = "" then (reg, StepResponse.noFileSelected, [])
  else if allowed_file filename = false then (reg, StepResponse.invalidFileType, [])
  else
    match process_step_file tess readResult newId reg with
    | (reg2, Except.error e) => (reg2, StepResponse.processingFailed e, kernelCallsOf readResult)
    | (reg2, Except.ok m) => (reg2, StepResponse.success m, kernelCallsOf readResult)

/-- Model of np.array(points_flat).reshape(-1, 3) (line 217): grouping the
flat coordinate list into 3D points, failing exactly when the flat length
is not a multiple of 3. -/
def reshape3 : List ℚ → Option (List Vec3)
  | [] => some []
  | [_] => none
  | [_, _] => none
  | x :: y :: z :: rest => (reshape3 rest).map (fun l => Vec3.mk x y z :: l)

theorem reshape3_none_iff : ∀ l : List ℚ, reshape3 l = none ↔ l.length % 3 ≠ 0
  | [] => by simp [reshape3]
  | [x] => by simp [reshape3]
  | [x, y] => by simp [reshape3]
  | x :: y :: z :: rest => by
    have ih := reshape3_none_iff rest
    constructor
    · intro h
      cases hr : reshape3 rest with
      | none =>
        have hm := ih.mp hr
        simp only [List.length_cons]
        omega
      | some l => rw [reshape3, hr] at h; simp at h
    · intro h
      have hmod : rest.length % 3 ≠ 0 := by
        simp only [List.length_cons] at h
        omega
      rw [reshape3, ih.mpr hmod]
      rfl

theorem reshape3_length :
    ∀ (l : List ℚ) (pts : List Vec3), reshape3 l = some pts → pts.length = l.length / 3
  | [], pts => by intro h; simp [reshape3] at h; simp [← h]
  | [x], pts => by intro h; simp [reshape3] at h
  | [x, y], pts => by intro h; simp [reshape3] at h
  | x :: y :: z :: rest, pts => by
    intro h
    cases hr : reshape3 rest with
    | none => rw [reshape3, hr] at h; simp at h
    | some l =>
      rw [reshape3, hr] at h
      have h2 : Vec3.mk x y z :: l = pts := by simpa using h
      have ih := reshape3_length rest l hr
      have h3 : (x :: y :: z :: rest).length = rest.length + 3 := by
        simp only [List.length_cons]
      rw [← h2, h3, Nat.add_div_right _ (by norm_num), List.length_cons, ih]

/-- The componentwise minimum corner min_bound of a point cloud
(np.min(points, axis=0), line 221); the empty case never occurs on the
route because empty point lists are rejected first. -/
def minBound : List Vec3 → Vec3
  | [] => ⟨0, 0, 0⟩
  | p :: ps =>
    ⟨foldMin p.x (ps.map Vec3.x), foldMin p.y (ps.map Vec3.y), foldMin p.z (ps.map Vec3.z)⟩

/-- The componentwise maximum corner max_bound of a point cloud
(np.max(points, axis=0), line 222). -/
def maxBound : List Vec3 → Vec3
  | [] => ⟨0, 0, 0⟩
  | p :: ps =>
    ⟨foldMax p.x (ps.map Vec3.x), foldMax p.y (ps.map Vec3.y), foldMax p.z (ps.map Vec3.z)⟩

/-- The bounding box diagonal np.linalg.norm(max_bound - min_bound)
(line 225). -/
noncomputable def diagonal_length (pts : List Vec3) : ℝ :=
  Real.sqrt ((((maxBound pts).x - (minBound pts).x : ℚ) : ℝ) ^ 2
    + (((maxBound pts).y - (minBound pts).y : ℚ) : ℝ) ^ 2
    + (((maxBound pts).z - (minBound pts).z : ℚ) : ℝ) ^ 2)

/-- The adaptive inlier threshold diagonal_length * threshold_percentage
with threshold_percentage = 0.025 (lines 229-230). -/
noncomputable def adaptiveThreshold (pts : List Vec3) : ℝ :=
  diagonal_length pts * 0.025

/-- A 3D point or vector with real coordinates, for the quantities the
fitter derives through Euclidean norms. -/
structure VecR where
  x : ℝ
  y : ℝ
  z : ℝ

/-- Euclidean norm np.linalg.norm on a real 3-vector. -/
noncomputable def rnorm (v : VecR) : ℝ := Real.sqrt (v.x ^ 2 + v.y ^ 2 + v.z ^ 2)

/-- Componentwise division of the axis by its norm, modelling
axis / np.linalg.norm(axis) (line 241). -/
noncomputable def axisNormalized (a : VecR) : VecR :=
  ⟨a.x / rnorm a, a.y / rnorm a, a.z / rnorm a⟩

/-- Dot product of real 3-vectors. -/
noncomputable def dotR (a b : VecR) : ℝ := a.x * b.x + a.y * b.y + a.z * b.z

/-- Componentwise difference of real 3-vectors. -/
noncomputable def subR (a b : VecR) : VecR := ⟨a.x - b.x, a.y - b.y, a.z - b.z⟩

/-- Componentwise sum of real 3-vectors. -/
noncomputable def addR (a b : VecR) : VecR := ⟨a.x + b.x, a.y + b.y, a.z + b.z⟩

/-- Scalar multiple of a real 3-vector. -/
noncomputable def smulR (k : ℝ) (a : VecR) : VecR := ⟨k * a.x, k * a.y, k * a.z⟩

/-- Sequential real minimum fold. -/
noncomputable def foldMinR (a : ℝ) : List ℝ → ℝ
  | [] => a
  | b :: l => foldMinR (min a b) l

/-- Sequential real maximum fold. -/
noncomputable def foldMaxR (a : ℝ) : List ℝ → ℝ
  | [] => a
  | b :: l => foldMaxR (max a b) l

/-- np.min over a nonempty real list (0 on the empty list, which the code
never reaches because an empty inlier set raises and is caught). -/
noncomputable def minList : List ℝ → ℝ
  | [] => 0
  | a :: l => foldMinR a l

/-- np.max over a nonempty real list. -/
noncomputable def maxList : List ℝ → ℝ
  | [] => 0
  | a :: l => foldMaxR a l

/-- The projected offsets np.dot(inlier_points - center, axis_normalized)
of the inlier points from the candidate center onto the unit axis
(lines 244-246). -/
noncomputable def projDists (c a : VecR) (pts : List VecR) : List ℝ :=
  pts.map (fun p => dotR (subR p c) (axisNormalized a))

/-- The recomputed cylinder height max_dist - min_dist (lines 248-250). -/
noncomputable def cylHeight (c a : VecR) (pts : List VecR) : ℝ :=
  maxList (projDists c a pts) - minList (projDists c a pts)

/-- The recomputed reported center
center + axis_normalized * ((min_dist + max_dist) / 2) (line 251). -/
noncomputable def cylFinalCenter (c a : VecR) (pts : List VecR) : VecR :=
  addR c (smulR ((minList (projDists c a pts) + maxList (projDists c a pts)) / 2)
    (axisNormalized a))

/-- The tuple returned by the external cyl.fit call (line 238): candidate
center, axis, radius, and the inlier index set. -/
structure FitData where
  fcenter : VecR
  faxis : VecR
  fradius : ℝ
  inliers : List Nat

/-- Modelled from the spec: the external pyransac3d Cylinder.fit routine
is an oracle taking the points, the distance threshold and the iteration
bound; per the spec it requires a minimum of 3 points and raises
(returns none) below that, and may raise on any non-convergence. -/
def ransacFit (fit : List Vec3 → ℝ → Nat → Option FitData)
    (pts : List Vec3) (thresh : ℝ) (maxIteration : Nat) : Option FitData :=
  if pts.length < 3 then none else fit pts thresh maxIteration

/-- Casting an input point to real coordinates. -/
noncomputable def toVecR (v : Vec3) : VecR := ⟨(v.x : ℝ), (v.y : ℝ), (v.z : ℝ)⟩

/-- Model of the fancy indexing points[inliers_indices] (line 244):
out-of-range indices raise (none); otherwise the selected points. -/
noncomputable def selectInliers (pts : List Vec3) (idxs : List Nat) : Option (List VecR) :=
  if idxs.all (fun i => i < pts.length) then
    some (idxs.map (fun i => toVecR (pts.getD i ⟨0, 0, 0⟩)))
  else none

/-- Responses of the recognize-shape route. -/
inductive RecogResponse where
  | unavailable
  | validationError (msg : String)
  | fitFailed
  | cylinder (center axisv : VecR) (radius height : ℝ)

/-- Model of recognize_shape (lines 205-267): the unavailable-dependency
guard, the emptiness validation, then inside the try block the reshape,
the adaptive threshold, the fit call with thresh = adaptiveThreshold and
maxIteration = 2000, inlier selection and the min/max post-processing;
every exception raised inside the try block is reported as the one
generic cylinder-fitting failure. -/
noncomputable def recognize_shape (available : Bool)
    (fit : List Vec3 → ℝ → Nat → Option FitData) (points_flat : List ℚ) :
    RecogResponse :=
  if available = false then RecogResponse.unavailable
  else if points_flat = [] then RecogResponse.validationError "No points provided"
  else
    match reshape3 points_flat with
    | none => RecogResponse.fitFailed
    | some pts =>
      match ransacFit fit pts (adaptiveThreshold pts) 2000 with
      | none => RecogResponse.fitFailed
      | some fd =>
        match selectInliers pts fd.inliers with
        | none => RecogResponse.fitFailed
        | some inl =>
          if inl.isEmpty then RecogResponse.fitFailed
          else
            RecogResponse.cylinder (cylFinalCenter fd.fcenter fd.faxis inl)
              (axisNormalized fd.faxis) fd.fradius (cylHeight fd.fcenter fd.faxis inl)

theorem foldMinR_le_init (l : List ℝ) : ∀ a, foldMinR a l ≤ a := by
  induction l with
  | nil => intro a; exact le_refl a
  | cons b t ih => intro a; exact le_trans (ih (min a b)) (min_le_left a b)

theorem foldMaxR_init_le (l : List ℝ) : ∀ a, a ≤ foldMaxR a l := by
  induction l with
  | nil => intro a; exact le_refl a
  | cons b t ih => intro a; exact le_trans (le_max_left a b) (ih (max a b))

theorem minList_le_maxList (l : List ℝ) (h : l ≠ []) : minList l ≤ maxList l := by
  cases l with
  | nil => exact absurd rfl h
  | cons a t =>
    exact le_trans (foldMinR_le_init t a) (foldMaxR_init_le t a)

theorem Vec3.add_def (a b : Vec3) : a + b = ⟨a.x + b.x, a.y + b.y, a.z + b.z⟩ := rfl

/-- Whether a handler outcome is a success. -/
def exceptIsOk : Except ServerErr MeshRecord → Bool
  | Except.ok _ => true
  | Except.error _ => false

/-- A tessellation oracle on which meshing always fails. -/
def tessNone : Shape → Option (List FaceData) := fun _ => none

/-- A fit oracle that always raises. -/
def fitNone : List Vec3 → ℝ → Nat → Option FitData := fun _ _ _ => none

/-- A small concrete triangulation used by witnesses. -/
def exTriangulation : Triangulation :=
  { tris := [⟨1, 2, 3⟩, ⟨2, 3, 4⟩]
    node := fun n => ⟨(n : ℚ), 0, 0⟩
    transform := fun v => v }

/-- A small concrete face list used by witnesses: one triangulated planar
face followed by one face the kernel produced no triangulation for. -/
def exFaces : List FaceData :=
  [ { surface := SurfaceProps.Plane, triangulation := some exTriangulation }
  , { surface := SurfaceProps.Other, triangulation := none } ]

/-- Claim C1: for every mesh record produced by extract_mesh_data, every
element of indices is a valid vertex offset, the faceIdByTriangle length
equals the triangle count equals indices length over 3 equals the sum of
the per-face triangleCount values, and the reported counts equal the
vertex, triangle and face totals of the buffers. -/
theorem C1_mesh_record_invariants (fds : List FaceData) (sid : Option String) :
    (∀ k ∈ (extract_mesh_data fds sid).indices,
        k < (extract_mesh_data fds sid).vertices.length / 3)
  ∧ (extract_mesh_data fds sid).faceIdByTriangle.length
      = (extract_mesh_data fds sid).indices.length / 3
  ∧ (extract_mesh_data fds sid).indices.length / 3
      = ((extract_mesh_data fds sid).faces.map (fun fr => fr.triangleCount)).sum
  ∧ (extract_mesh_data fds sid).vertexCount
      = (extract_mesh_data fds sid).vertices.length / 3
  ∧ (extract_mesh_data fds sid).triangleCount
      = (extract_mesh_data fds sid).indices.length / 3
  ∧ (extract_mesh_data fds sid).faceCount = (extract_mesh_data fds sid).faces.length := by
  simp only [extract_eq]
  have hv : (flatten3 (gvSpec fds)).length / 3 = (gvSpec fds).length := by
    rw [flatten3_length]
    exact Nat.mul_div_cancel_left _ (by norm_num)
  have hgi : (giSpec 0 fds).length / 3 = triTotal fds := by
    rw [giSpec_length]
    exact Nat.mul_div_cancel_left _ (by norm_num)
  refine ⟨?_, ?_, ?_, ?_, trivial, trivial⟩
  · intro k hk
    rw [hv]
    have hb := gvSpec_length_aux fds 0 k hk
    omega
  · rw [hgi, fibtSpec_length]
  · rw [hgi, facesSpec_sum]
  · rw [hv]

/-- Witness for C1 at a concrete face list. -/
theorem C1_mesh_record_invariants_witness :
    (extract_mesh_data exFaces none).faceIdByTriangle.length
      = (extract_mesh_data exFaces none).indices.length / 3 :=
  (C1_mesh_record_invariants exFaces none).2.1

/-- Claim C3: the builder deduplicates vertices keyed solely by the native
node identifier (its indices and vertex count do not depend on node
positions, so coincident but distinct nodes stay separate), assigns local
vertex indices monotonically in first-seen order, and emits 3 local
indices per triangle preserving triangle order and winding order. -/
theorem C3_builder_first_seen_dedup (T : Triangulation) :
    (buildFace T).face_vertices
      = (seenOrder (nodesOf T.tris)).map (fun n => T.transform (T.node n))
  ∧ (buildFace T).face_indices
      = (nodesOf T.tris).map (fun n => firstIdx (seenOrder (nodesOf T.tris)) n)
  ∧ (∀ (g : Nat → Vec3) (tf : Vec3 → Vec3),
      (buildFace { tris := T.tris, node := g, transform := tf }).face_indices
          = (buildFace T).face_indices
      ∧ (buildFace { tris := T.tris, node := g, transform := tf }).face_vertices.length
          = (buildFace T).face_vertices.length)
  ∧ (buildFace T).face_indices.length = 3 * T.tris.length := by
  refine ⟨buildFace_vertices T, buildFace_indices T, ?_, buildFace_indices_length T⟩
  intro g tf
  constructor
  · rw [buildFace_indices { tris := T.tris, node := g, transform := tf },
      buildFace_indices T]
  · rw [buildFace_vertices { tris := T.tris, node := g, transform := tf },
      buildFace_vertices T, List.length_map, List.length_map]

/-- Witness for C3 at a concrete triangulation. -/
theorem C3_builder_first_seen_dedup_witness :
    (buildFace exTriangulation).face_indices.length
      = 3 * exTriangulation.tris.length :=
  (C3_builder_first_seen_dedup exTriangulation).2.2.2

/-- Claim C4: a face without a triangulation contributes zero vertices,
triangles and indices and is entirely absent from faces, faceIdByTriangle
and the global buffers, while face ids still come from the 0-based
traversal index that counts every enumerated face (facesSpec, fibtSpec,
gvSpec, giSpec and triIdxs skip untriangulated faces but always advance
the traversal counter). -/
theorem C4_untriangulated_faces_absent (fds : List FaceData) (sid : Option String) :
    (extract_mesh_data fds sid).faces = facesSpec 0 fds
  ∧ (extract_mesh_data fds sid).faceIdByTriangle = fibtSpec 0 fds
  ∧ (extract_mesh_data fds sid).indices = giSpec 0 fds
  ∧ (extract_mesh_data fds sid).vertices = flatten3 (gvSpec fds)
  ∧ (extract_mesh_data fds sid).faces.map (fun fr => fr.id)
      = (triIdxs 0 fds).map faceIdStr := by
  simp only [extract_eq]
  exact ⟨trivial, trivial, trivial, trivial, facesSpec_ids fds 0⟩

/-- Witness for C4 at a concrete face list containing an untriangulated
face. -/
theorem C4_untriangulated_faces_absent_witness :
    (extract_mesh_data exFaces none).faces.map (fun fr => fr.id)
      = (triIdxs 0 exFaces).map faceIdStr :=
  (C4_untriangulated_faces_absent exFaces none).2.2.2.2

/-- Claim C2 as stated is false at a concrete input: a transform request
on a stored shape at the origin with translation (1, 0, 0) whose
re-tessellation fails returns a failure, yet the registry afterwards holds
the translated shape, not the state from before the request. -/
theorem C2_atomicity_counterexample :
    exceptIsOk (transform_shape tessNone "a" (some (Vec3.mk 1 0 0)) none
        [("a", [Vec3.mk 0 0 0])]).2 = false
  ∧ (transform_shape tessNone "a" (some (Vec3.mk 1 0 0)) none
        [("a", [Vec3.mk 0 0 0])]).1 = [("a", [Vec3.mk 1 0 0])]
  ∧ [("a", [Vec3.mk 1 0 0])] ≠ [("a", [Vec3.mk 0 0 0])] := by
  refine ⟨?_, ?_, ?_⟩
  · norm_num [transform_shape, tessNone, regGet, regSet, applyTrans, applyRot,
      exceptIsOk, Vec3.add_def]
  · norm_num [transform_shape, tessNone, regGet, regSet, applyTrans, applyRot,
      Vec3.add_def]
  · norm_num [Vec3.mk.injEq]

/-- Claim C2 amended: a read failure during import and a lookup failure
during transform leave the registry unchanged, but a tessellation failure
is not atomic: after import it leaves the newly centered shape stored
under its fresh identifier, and during a transform it leaves the already
applied translation and rotation on the stored shape. -/
theorem C2_failure_state_behavior (tess : Shape → Option (List FaceData))
    (reg : Registry) (newId sid : String) (s : Shape) (t : Option Vec3)
    (rot : Option (Vec3 → Vec3)) :
    (process_step_file tess none newId reg = (reg, Except.error ServerErr.readFailed))
  ∧ (regGet reg sid = none →
      transform_shape tess sid t rot reg = (reg, Except.error ServerErr.notFound))
  ∧ (tess (center_shape s) = none →
      process_step_file tess (some s) newId reg
        = (regSet reg newId (center_shape s), Except.error ServerErr.meshingFailed))
  ∧ (∀ s0, regGet reg sid = some s0 →
      tess (applyRot rot (applyTrans t s0)) = none →
      transform_shape tess sid t rot reg
        = (regSet reg sid (applyRot rot (applyTrans t s0)),
            Except.error ServerErr.meshingFailed)) := by
  refine ⟨rfl, ?_, ?_, ?_⟩
  · intro h
    simp [transform_shape, h]
  · intro h
    simp [process_step_file, h]
  · intro s0 h1 h2
    simp [transform_shape, h1, h2]

/-- Witness for the amended C2 at concrete inputs: importing a shape whose
tessellation fails leaves the new registry entry behind. -/
theorem C2_failure_state_behavior_witness :
    tessNone (center_shape [Vec3.mk 1 1 1]) = none
  ∧ process_step_file tessNone (some [Vec3.mk 1 1 1]) "b" []
      = (regSet [] "b" (center_shape [Vec3.mk 1 1 1]),
          Except.error ServerErr.meshingFailed) :=
  ⟨rfl, (C2_failure_state_behavior tessNone [] "b" "b" [Vec3.mk 1 1 1]
      none none).2.2.1 rfl⟩

theorem foldMin_proj_sub (ps : List Vec3) (f : Vec3 → ℚ) (c a : ℚ) :
    foldMin (a - c) (ps.map (fun q => f q - c)) = foldMin a (ps.map f) - c := by
  have h1 : ps.map (fun q => f q - c) = (ps.map f).map (fun r => r - c) := by
    rw [List.map_map]
    rfl
  rw [h1, foldMin_map_sub]

theorem foldMax_proj_sub (ps : List Vec3) (f : Vec3 → ℚ) (c a : ℚ) :
    foldMax (a - c) (ps.map (fun q => f q - c)) = foldMax a (ps.map f) - c := by
  have h1 : ps.map (fun q => f q - c) = (ps.map f).map (fun r => r - c) := by
    rw [List.map_map]
    rfl
  rw [h1, foldMax_map_sub]

/-- Claim C7: for a shape with a non-void bounding box, center_shape
applies the pure translation negating the box center, so the recomputed
bounding box center afterwards is exactly the origin; a shape with a void
bounding box is returned unmodified. -/
theorem C7_centering_transform (s : Shape) :
    (bboxGet s = none → center_shape s = s)
  ∧ (bboxGet s ≠ none → bboxCenter (center_shape s) = some (Vec3.mk 0 0 0)) := by
  constructor
  · intro h
    unfold center_shape
    rw [h]
  · intro hnv
    cases s with
    | nil => exact absurd rfl hnv
    | cons p ps =>
      simp only [center_shape, bboxGet, List.map_cons, List.map_map, Function.comp_def,
        bboxCenter, Option.some.injEq, Vec3.mk.injEq]
      rw [foldMin_proj_sub ps Vec3.x, foldMax_proj_sub ps Vec3.x,
        foldMin_proj_sub ps Vec3.y, foldMax_proj_sub ps Vec3.y,
        foldMin_proj_sub ps Vec3.z, foldMax_proj_sub ps Vec3.z]
      refine ⟨by ring, by ring, by ring⟩

/-- Witness for C7 at a concrete one-point shape. -/
theorem C7_centering_transform_witness :
    bboxGet [Vec3.mk 1 2 3] ≠ none
  ∧ bboxCenter (center_shape [Vec3.mk 1 2 3]) = some (Vec3.mk 0 0 0) :=
  ⟨by decide, (C7_centering_transform [Vec3.mk 1 2 3]).2 (by decide)⟩

/-- Claim C8: an import request whose filename has a disallowed extension
is rejected by validation before any kernel call is attempted: the kernel
call trace is empty, the response can never be a processing (kernel)
failure, and when the earlier file checks pass the response is exactly
the invalid-file-type rejection with the registry untouched. -/
theorem C8_extension_validation (tess : Shape → Option (List FaceData))
    (fileProvided : Bool) (filename : String) (readResult : Option Shape)
    (newId : String) (reg : Registry) (h : allowed_file filename = false) :
    (process_step tess fileProvided filename readResult newId reg).2.2 = []
  ∧ (∀ e, (process_step tess fileProvided filename readResult newId reg).2.1
      ≠ StepResponse.processingFailed e)
  ∧ (fileProvided = true → filename ≠ "" →
      process_step tess fileProvided filename readResult newId reg
        = (reg, StepResponse.invalidFileType, [])) := by
  by_cases hf : fileProvided = false
  · refine ⟨by simp [process_step, hf], fun e => by simp [process_step, hf], ?_⟩
    intro ht _
    rw [ht] at hf
    simp at hf
  · have hft : fileProvided = true := by
      revert hf
      cases fileProvided <;> simp
    by_cases hemp : filename = ""
    · exact ⟨by simp [process_step, hft, hemp],
        fun e => by simp [process_step, hft, hemp],
        fun _ hne => absurd hemp hne⟩
    · exact ⟨by simp [process_step, hft, hemp, h],
        fun e => by simp [process_step, hft, hemp, h],
        fun _ _ => by simp [process_step, hft, hemp, h]⟩

/-- Witness for C8 at a concrete rejected filename. -/
theorem C8_extension_validation_witness :
    allowed_file "model.txt" = false
  ∧ process_step tessNone true "model.txt" none "n" []
      = ([], StepResponse.invalidFileType, []) :=
  ⟨by decide, (C8_extension_validation tessNone true "model.txt" none "n" []
      (by decide)).2.2 rfl (by decide)⟩

/-- Claim C9: a transform request carrying both a translation and a
rotation applies the translation to the stored shape first and the
rotation second, and at a concrete request this differs from applying
them in the opposite order. -/
theorem C9_translation_before_rotation (tess : Shape → Option (List FaceData))
    (reg : Registry) (sid : String) (s : Shape) (t : Vec3) (rf : Vec3 → Vec3)
    (h : regGet reg sid = some s) :
    (transform_shape tess sid (some t) (some rf) reg).1
        = regSet reg sid ((s.map (fun p => p + t)).map rf)
  ∧ (transform_shape tessNone "a" (some (Vec3.mk 1 0 0)) (some rotZ90)
        [("a", [Vec3.mk 0 0 0])]).1
      ≠ regSet [("a", [Vec3.mk 0 0 0])] "a"
          (([Vec3.mk 0 0 0].map rotZ90).map (fun p => p + Vec3.mk 1 0 0)) := by
  constructor
  · simp only [transform_shape, h, applyTrans, applyRot]
    cases tess ((s.map (fun p => p + t)).map rf) <;> rfl
  · norm_num [transform_shape, tessNone, regGet, regSet, applyTrans, applyRot,
      rotZ90, Vec3.add_def, Vec3.mk.injEq]

/-- Witness for C9 at a concrete registry. -/
theorem C9_translation_before_rotation_witness :
    regGet [("a", [Vec3.mk 0 0 0])] "a" = some [Vec3.mk 0 0 0]
  ∧ (transform_shape tessNone "a" (some (Vec3.mk 2 0 0)) (some rotZ90)
        [("a", [Vec3.mk 0 0 0])]).1
      = regSet [("a", [Vec3.mk 0 0 0])] "a"
          (([Vec3.mk 0 0 0].map (fun p => p + Vec3.mk 2 0 0)).map rotZ90) :=
  ⟨by decide, (C9_translation_before_rotation tessNone [("a", [Vec3.mk 0 0 0])]
      "a" [Vec3.mk 0 0 0] (Vec3.mk 2 0 0) rotZ90 (by decide)).1⟩

/-- Claim C5: for every nonempty input point cloud the adaptive inlier
threshold equals exactly 2.5 percent of the Euclidean length of the
vector from the per-axis minimum corner to the per-axis maximum corner,
where those corners bound every input point componentwise and each of
their coordinates is attained by some input point. -/
theorem C5_adaptive_threshold (pts : List Vec3) (h : pts ≠ []) :
    adaptiveThreshold pts
        = 0.025 * Real.sqrt ((((maxBound pts).x - (minBound pts).x : ℚ) : ℝ) ^ 2
            + (((maxBound pts).y - (minBound pts).y : ℚ) : ℝ) ^ 2
            + (((maxBound pts).z - (minBound pts).z : ℚ) : ℝ) ^ 2)
  ∧ (∀ p ∈ pts, (minBound pts).x ≤ p.x ∧ (minBound pts).y ≤ p.y
      ∧ (minBound pts).z ≤ p.z ∧ p.x ≤ (maxBound pts).x
      ∧ p.y ≤ (maxBound pts).y ∧ p.z ≤ (maxBound pts).z)
  ∧ ((minBound pts).x ∈ pts.map Vec3.x ∧ (minBound pts).y ∈ pts.map Vec3.y
      ∧ (minBound pts).z ∈ pts.map Vec3.z ∧ (maxBound pts).x ∈ pts.map Vec3.x
      ∧ (maxBound pts).y ∈ pts.map Vec3.y ∧ (maxBound pts).z ∈ pts.map Vec3.z) := by
  refine ⟨by rw [adaptiveThreshold, diagonal_length, mul_comm], ?_, ?_⟩
  · cases pts with
    | nil => exact absurd rfl h
    | cons p ps =>
      intro q hq
      rcases List.mem_cons.mp hq with h1 | h1
      · subst h1
        exact ⟨foldMin_le_init _ _, foldMin_le_init _ _, foldMin_le_init _ _,
          foldMax_init_le _ _, foldMax_init_le _ _, foldMax_init_le _ _⟩
      · exact ⟨foldMin_le_mem _ _ _ (List.mem_map_of_mem Vec3.x h1),
          foldMin_le_mem _ _ _ (List.mem_map_of_mem Vec3.y h1),
          foldMin_le_mem _ _ _ (List.mem_map_of_mem Vec3.z h1),
          foldMax_mem_le _ _ _ (List.mem_map_of_mem Vec3.x h1),
          foldMax_mem_le _ _ _ (List.mem_map_of_mem Vec3.y h1),
          foldMax_mem_le _ _ _ (List.mem_map_of_mem Vec3.z h1)⟩
  · cases pts with
    | nil => exact absurd rfl h
    | cons p ps =>
      refine ⟨?_, ?_, ?_, ?_, ?_, ?_⟩
      · rcases foldMin_mem_or (ps.map Vec3.x) p.x with h1 | h1
        · rw [minBound, h1]; exact List.mem_cons_self _ _
        · rw [minBound]; exact List.mem_cons_of_mem _ h1
      · rcases foldMin_mem_or (ps.map Vec3.y) p.y with h1 | h1
        · rw [minBound, h1]; exact List.mem_cons_self _ _
        · rw [minBound]; exact List.mem_cons_of_mem _ h1
      · rcases foldMin_mem_or (ps.map Vec3.z) p.z with h1 | h1
        · rw [minBound, h1]; exact List.mem_cons_self _ _
        · rw [minBound]; exact List.mem_cons_of_mem _ h1
      · rcases foldMax_mem_or (ps.map Vec3.x) p.x with h1 | h1
        · rw [maxBound, h1]; exact List.mem_cons_self _ _
        · rw [maxBound]; exact List.mem_cons_of_mem _ h1
      · rcases foldMax_mem_or (ps.map Vec3.y) p.y with h1 | h1
        · rw [maxBound, h1]; exact List.mem_cons_self _ _
        · rw [maxBound]; exact List.mem_cons_of_mem _ h1
      · rcases foldMax_mem_or (ps.map Vec3.z) p.z with h1 | h1
        · rw [maxBound, h1]; exact List.mem_cons_self _ _
        · rw [maxBound]; exact List.mem_cons_of_mem _ h1

/-- Witness for C5 at a concrete one-point cloud. -/
theorem C5_adaptive_threshold_witness :
    [Vec3.mk 1 2 3] ≠ ([] : List Vec3)
  ∧ adaptiveThreshold [Vec3.mk 1 2 3]
      = 0.025 * Real.sqrt
          ((((maxBound [Vec3.mk 1 2 3]).x - (minBound [Vec3.mk 1 2 3]).x : ℚ) : ℝ) ^ 2
            + (((maxBound [Vec3.mk 1 2 3]).y - (minBound [Vec3.mk 1 2 3]).y : ℚ) : ℝ) ^ 2
            + (((maxBound [Vec3.mk 1 2 3]).z - (minBound [Vec3.mk 1 2 3]).z : ℚ) : ℝ) ^ 2) :=
  ⟨by decide, (C5_adaptive_threshold [Vec3.mk 1 2 3] (by decide)).1⟩

/-- Claim C6: for every successful cylinder fit (nonzero raw axis, at
least one inlier) the returned axis has unit length, the returned height
is the maximum minus the minimum projected offset of the inliers from the
candidate center along the unit axis and is nonnegative, and the returned
center is the candidate center shifted along the unit axis by the
midpoint of those extreme projections. -/
theorem C6_cylinder_postprocess (c a : VecR) (inl : List VecR)
    (ha : rnorm a ≠ 0) (hne : inl ≠ []) :
    rnorm (axisNormalized a) = 1
  ∧ cylHeight c a inl = maxList (projDists c a inl) - minList (projDists c a inl)
  ∧ 0 ≤ cylHeight c a inl
  ∧ cylFinalCenter c a inl
      = addR c (smulR ((minList (projDists c a inl) + maxList (projDists c a inl)) / 2)
          (axisNormalized a)) := by
  have hs0 : (0 : ℝ) ≤ a.x ^ 2 + a.y ^ 2 + a.z ^ 2 := by positivity
  have hnn : rnorm a ^ 2 = a.x ^ 2 + a.y ^ 2 + a.z ^ 2 := Real.sq_sqrt hs0
  have hne0 : a.x ^ 2 + a.y ^ 2 + a.z ^ 2 ≠ 0 := by
    intro hc
    apply ha
    show Real.sqrt (a.x ^ 2 + a.y ^ 2 + a.z ^ 2) = 0
    rw [hc, Real.sqrt_zero]
  refine ⟨?_, rfl, ?_, rfl⟩
  · show Real.sqrt ((a.x / rnorm a) ^ 2 + (a.y / rnorm a) ^ 2 + (a.z / rnorm a) ^ 2) = 1
    rw [div_pow, div_pow, div_pow, div_add_div_same, div_add_div_same, hnn,
      div_self hne0, Real.sqrt_one]
  · have hd : projDists c a inl ≠ [] := by
      cases inl with
      | nil => exact absurd rfl hne
      | cons q qs => simp [projDists]
    have hle := minList_le_maxList _ hd
    show 0 ≤ maxList (projDists c a inl) - minList (projDists c a inl)
    linarith

/-- The norm of the concrete axis used by the C6 witness. -/
theorem rnorm_unit_z : rnorm ⟨0, 0, 1⟩ = 1 := by
  show Real.sqrt ((0 : ℝ) ^ 2 + (0 : ℝ) ^ 2 + (1 : ℝ) ^ 2) = 1
  norm_num

/-- Witness for C6 at a concrete axis and inlier set. -/
theorem C6_cylinder_postprocess_witness :
    rnorm ⟨0, 0, 1⟩ ≠ 0
  ∧ 0 ≤ cylHeight ⟨0, 0, 0⟩ ⟨0, 0, 1⟩ [⟨1, 2, 3⟩] :=
  ⟨by simp [rnorm_unit_z],
    (C6_cylinder_postprocess ⟨0, 0, 0⟩ ⟨0, 0, 1⟩ [⟨1, 2, 3⟩]
      (by simp [rnorm_unit_z]) (by simp)).2.2.1⟩

/-- Claim C10: the recognize-shape operation rejects only an empty points
list as input validation; a nonempty flat list whose length is not a
multiple of 3, and a well-formed list of fewer than 3 points, are not
rejected up front but fall through into fitting and are reported as the
generic cylinder-fitting failure. -/
theorem C10_recognize_validation (fit : List Vec3 → ℝ → Nat → Option FitData)
    (flat : List ℚ) :
    (flat = [] →
      recognize_shape true fit flat = RecogResponse.validationError "No points provided")
  ∧ (flat ≠ [] → flat.length % 3 ≠ 0 →
      recognize_shape true fit flat = RecogResponse.fitFailed)
  ∧ (flat ≠ [] → flat.length % 3 = 0 → flat.length < 9 →
      recognize_shape true fit flat = RecogResponse.fitFailed) := by
  refine ⟨?_, ?_, ?_⟩
  · intro h
    simp [recognize_shape, h]
  · intro h1 h2
    have hr : reshape3 flat = none := (reshape3_none_iff flat).mpr h2
    simp [recognize_shape, h1, hr]
  · intro h1 h2 h3
    cases hr : reshape3 flat with
    | none => simp [recognize_shape, h1, hr]
    | some pts =>
      have hlen : pts.length = flat.length / 3 := reshape3_length flat pts hr
      have hlt : pts.length < 3 := by
        rw [hlen]
        exact (Nat.div_lt_iff_lt_mul (by norm_num)).mpr (by omega)
      simp [recognize_shape, h1, hr, ransacFit, hlt]

/-- Witness for C10 at a concrete flat list of length 2. -/
theorem C10_recognize_validation_witness :
    ([(1 : ℚ), 2] ≠ ([] : List ℚ))
  ∧ ([(1 : ℚ), 2] : List ℚ).length % 3 ≠ 0
  ∧ recognize_shape true fitNone [(1 : ℚ), 2] = RecogResponse.fitFailed :=
  ⟨by decide, by decide,
    (C10_recognize_validation fitNone [(1 : ℚ), 2]).2.1 (by decide) (by decide)⟩
